import Mathlib

/-!
Shallow embedding of the `node-identity` repository core
(`src/schema.ts`, `src/session.ts`, `src/identity.ts`).

Storage is modelled explicitly:
* the migration engine's storage is a `SchemaState`: an optional stored
  cursor (the `migration_number` row; `none` means the migration table does
  not exist yet) together with an abstract schema value of type `S` that the
  migration bodies transform;
* the session store's storage is a list of `SessionRow`s mirroring the
  `session_tokens` table;
* time is an `Int` of milliseconds passed to every operation as `now`
  (the source reads the wall clock via `new Date()`);
* random token generation (`crypto.randomBytes(...).toString("hex")`) is
  modelled by passing the generated token strings as explicit arguments.

Each state-mutating migration-engine operation also returns a count of the
storage writes it performed (table creation, cursor updates, migration-body
executions), so that "performs zero writes" claims can be stated.
-/

namespace NodeIdentity

/-- A reversible migration: `up`/`down` bodies acting on the abstract schema
state (`src/schema.ts`, interface `Migration`). -/
structure Migration (S : Type) where
  up : S → S
  down : S → S

/-- Storage owned by the migration engine: the stored cursor (`none` when the
migration table does not exist) and the abstract schema state. -/
structure SchemaState (S : Type) where
  table : Option Nat
  schema : S
deriving DecidableEq, Repr

/-- Embeds `Schema.getCurrentMigrationNumber`: if the migration table does not
exist, create it with cursor 0 (counted as 2 writes: `createTable` plus the
`insert`) and return 0; otherwise return the stored cursor with no writes.
Result: (returned cursor, new storage, number of writes). -/
def Schema.getCurrentMigrationNumber {S : Type} (st : SchemaState S) :
    Nat × SchemaState S × Nat :=
  match st.table with
  | none => (0, ⟨some 0, st.schema⟩, 2)
  | some n => (n, st, 0)

/-- Embeds `Schema.up`: read the cursor, and if a migration exists at that
index, execute its body (1 write), re-read the cursor and store cursor + 1
(1 write), returning `true`; otherwise return `false` having only read. -/
def Schema.up {S : Type} (m : List (Migration S)) (st : SchemaState S) :
    Bool × SchemaState S × Nat :=
  let r1 := Schema.getCurrentMigrationNumber st
  match m[r1.1]? with
  | none => (false, r1.2.1, r1.2.2)
  | some mig =>
    let st2 : SchemaState S := ⟨r1.2.1.table, mig.up r1.2.1.schema⟩
    let r3 := Schema.getCurrentMigrationNumber st2
    (true, ⟨some (r3.1 + 1), r3.2.1.schema⟩, r1.2.2 + 1 + r3.2.2 + 1)

/-- Embeds `Schema.down`: read the cursor; if it is 0 the previous index is
negative, so return `false`; if no migration exists at cursor − 1 return
`false`; otherwise execute the previous migration's `down` body (1 write) and
decrement the stored cursor (`decrementCurrentMigrationNumber` re-reads and,
when non-zero, stores cursor − 1: 1 write). -/
def Schema.down {S : Type} (m : List (Migration S)) (st : SchemaState S) :
    Bool × SchemaState S × Nat :=
  let r1 := Schema.getCurrentMigrationNumber st
  if r1.1 = 0 then (false, r1.2.1, r1.2.2)
  else
    match m[r1.1 - 1]? with
    | none => (false, r1.2.1, r1.2.2)
    | some mig =>
      let st2 : SchemaState S := ⟨r1.2.1.table, mig.down r1.2.1.schema⟩
      let r3 := Schema.getCurrentMigrationNumber st2
      if r3.1 = 0 then (true, r3.2.1, r1.2.2 + 1 + r3.2.2)
      else (true, ⟨some (r3.1 - 1), r3.2.1.schema⟩, r1.2.2 + 1 + r3.2.2 + 1)

/-- Embeds `Schema.build`: `while (await this.up()) {}` — repeatedly step up
until `Schema.up` reports a no-op. Returns the final storage and the total
number of writes performed. -/
def Schema.build {S : Type} (m : List (Migration S)) (st : SchemaState S) :
    SchemaState S × Nat :=
  match h : Schema.up m st with
  | (false, st1, w) => (st1, w)
  | (true, st1, w) =>
    let r := Schema.build m st1
    (r.1, w + r.2)
termination_by m.length + 1 - st.table.getD 0
decreasing_by
  have hc : st.table.getD 0 < m.length ∧ st1.table = some (st.table.getD 0 + 1) := by
    unfold Schema.up Schema.getCurrentMigrationNumber at h
    rcases st with ⟨tbl, s⟩
    cases tbl with
    | none =>
      simp only at h
      cases hg : m[0]? with
      | none => rw [hg] at h; simp at h
      | some mig =>
        rw [hg] at h
        simp only [Prod.mk.injEq, SchemaState.mk.injEq] at h
        refine ⟨?_, ?_⟩
        · have := List.getElem?_eq_some_iff.mp hg
          simpa using this.1
        · rw [← h.2.1]; rfl
    | some n =>
      simp only at h
      cases hg : m[n]? with
      | none => rw [hg] at h; simp at h
      | some mig =>
        rw [hg] at h
        simp only [Prod.mk.injEq, SchemaState.mk.injEq] at h
        refine ⟨?_, ?_⟩
        · have := List.getElem?_eq_some_iff.mp hg
          simpa using this.1
        · rw [← h.2.1]; rfl
  rw [hc.2]
  simp only [Option.getD_some]
  omega

/-- Error taxonomy of the session store (`src/session.ts`):
`SessionProgramError`, `SessionInvalidError`, `SessionExpiredError`,
`SessionRenewalError`. -/
inductive SessionError where
  | program : SessionError
  | invalid : SessionError
  | expired : SessionError
  | renewal : SessionError
deriving DecidableEq, Repr

/-- A row of the `session_tokens` table (`src/session.ts`, schema migration):
nullable columns are `Option`s, timestamps are milliseconds since the epoch. -/
structure SessionRow where
  id : Nat
  session_token : String
  user_id : Option Nat
  expires : Option Int
  renewal_token : Option String
  renewable_until : Option Int
deriving DecidableEq, Repr

/-- The `session_tokens` table, in insertion order. -/
abbrev SessionDb := List SessionRow

/-- Uniqueness invariants the storage enforces: the surrogate `id` is a
primary key and `session_token` is declared `unique` in the table schema. -/
def SessionDb.wellFormed (db : SessionDb) : Prop :=
  db.Pairwise (fun a b => a.id ≠ b.id ∧ a.session_token ≠ b.session_token)

instance (db : SessionDb) : Decidable db.wellFormed := by
  unfold SessionDb.wellFormed
  infer_instance

/-- An in-memory `Session` handle (`src/session.ts`, class `Session`): caches
the row's fields as of construction / last mutation time. -/
structure Session where
  id : Nat
  token : String
  userId : Option Nat
  expirationDate : Option Int
  renewalToken : Option String
  renewableUntil : Option Int
deriving DecidableEq, Repr

/-- A `Lifetime` (`src/session.ts`): each component independently optional and
defaulting to 0. Components are modelled as integers (negative values are
permitted and yield past timestamps). -/
structure Lifetime where
  years : Option Int
  months : Option Int
  weeks : Option Int
  days : Option Int
  hours : Option Int
  minutes : Option Int
  seconds : Option Int
  milliseconds : Option Int
deriving DecidableEq, Repr

/-- The all-`none` lifetime, for building concrete `Lifetime` values. -/
def Lifetime.zero : Lifetime := ⟨none, none, none, none, none, none, none, none⟩

/-- Embeds `SessionAdmin.lifetimeToMs`: missing components default to 0;
1 year = 365 days and 1 month = 30.5 days (exactly 2635200000 ms), all other
units exact. -/
def SessionAdmin.lifetimeToMs (t : Lifetime) : Int :=
  t.milliseconds.getD 0 +
  t.seconds.getD 0 * 1000 +
  t.minutes.getD 0 * (60 * 1000) +
  t.hours.getD 0 * (60 * 60 * 1000) +
  t.days.getD 0 * (24 * 60 * 60 * 1000) +
  t.weeks.getD 0 * (7 * 24 * 60 * 60 * 1000) +
  t.months.getD 0 * 2635200000 +
  t.years.getD 0 * (365 * 24 * 60 * 60 * 1000)

/-- The default `lifetime` argument of `SessionAdmin.create`: 30 days. -/
def SessionAdmin.defaultLifetime : Lifetime :=
  { Lifetime.zero with days := some 30 }

/-- The default `renewalPeriod` argument of `SessionAdmin.create`: 90 days. -/
def SessionAdmin.defaultRenewalPeriod : Lifetime :=
  { Lifetime.zero with days := some 90 }

/-- Embeds `SessionAdmin.create`: inserts a fresh row (surrogate id `newId`
assigned by storage, the two generated random tokens passed explicitly) with
`user_id = null`, `expires = now + lifetime`,
`renewable_until = now + lifetime + renewalPeriod`, and returns the updated
table together with the new `Session` handle. -/
def SessionAdmin.create (db : SessionDb) (now : Int) (newId : Nat)
    (token renewalToken : String) (lifetime renewalPeriod : Lifetime) :
    SessionDb × Session :=
  let lifetimeMs := SessionAdmin.lifetimeToMs lifetime
  let expirationDate := now + lifetimeMs
  let renewalPeriodMs := SessionAdmin.lifetimeToMs renewalPeriod
  let renewableUntilDate := now + lifetimeMs + renewalPeriodMs
  (db ++ [⟨newId, token, none, some expirationDate, some renewalToken,
      some renewableUntilDate⟩],
   ⟨newId, token, none, some expirationDate, some renewalToken,
      some renewableUntilDate⟩)

/-- Embeds `SessionAdmin.create` with both optional arguments omitted
(`lifetime = { days: 30 }`, `renewalPeriod = { days: 90 }`). -/
def SessionAdmin.createDefault (db : SessionDb) (now : Int) (newId : Nat)
    (token renewalToken : String) : SessionDb × Session :=
  SessionAdmin.create db now newId token renewalToken
    SessionAdmin.defaultLifetime SessionAdmin.defaultRenewalPeriod

/-- The WHERE clause of `SessionAdmin.open`: `session_token = token`. -/
def SessionAdmin.tokenMatch (token : String) (r : SessionRow) : Bool :=
  r.session_token == token

/-- Embeds `SessionAdmin.open` (named `openSession` because `open` is a Lean
keyword): look up the row by `session_token`; no row means
`SessionInvalidError`; a row whose non-null `expires` is strictly before `now`
means `SessionExpiredError`; otherwise a handle is built from the row's
current stored fields. -/
def SessionAdmin.openSession (db : SessionDb) (now : Int) (token : String) :
    Except SessionError Session :=
  match db.find? (SessionAdmin.tokenMatch token) with
  | none => .error .invalid
  | some row =>
    match row.expires with
    | some e =>
      if e < now then .error .expired
      else .ok ⟨row.id, row.session_token, row.user_id, some e,
        row.renewal_token, row.renewable_until⟩
    | none => .ok ⟨row.id, row.session_token, row.user_id, none,
        row.renewal_token, row.renewable_until⟩

/-- The WHERE clause of `SessionAdmin.renew`: `session_token = sessionToken
AND renewal_token = renewalToken` (a null `renewal_token` never equals a
string). -/
def SessionAdmin.renewMatch (sessionToken renewalToken : String)
    (r : SessionRow) : Bool :=
  r.session_token == sessionToken && r.renewal_token == some renewalToken

/-- Embeds `SessionAdmin.renew`: look the row up by the
`(sessionToken, renewalToken)` pair; no match, or a match whose non-null
`renewable_until` is strictly before `now`, raises `SessionRenewalError`;
otherwise the same row (by `id`) is updated in place with the two freshly
generated tokens (passed explicitly as `newToken`/`newRenewalToken`),
`expires = now + lifetime` and
`renewable_until = now + lifetime + renewalPeriod`, and a handle carrying the
row's `user_id` is returned. -/
def SessionAdmin.renew (db : SessionDb) (now : Int) (sessionToken : String)
    (lifetime : Lifetime) (renewalToken : String) (renewalPeriod : Lifetime)
    (newToken newRenewalToken : String) :
    Except SessionError (SessionDb × Session) :=
  match db.find? (SessionAdmin.renewMatch sessionToken renewalToken) with
  | none => .error .renewal
  | some row =>
    let lifetimeMs := SessionAdmin.lifetimeToMs lifetime
    let expirationDate := now + lifetimeMs
    let renewalPeriodMs := SessionAdmin.lifetimeToMs renewalPeriod
    let renewableUntilDate := now + lifetimeMs + renewalPeriodMs
    let updated : SessionDb := db.map (fun r =>
      if r.id = row.id then
        ⟨r.id, newToken, r.user_id, some expirationDate,
          some newRenewalToken, some renewableUntilDate⟩
      else r)
    match row.renewable_until with
    | some ru =>
      if now > ru then .error .renewal
      else .ok (updated, ⟨row.id, newToken, row.user_id, some expirationDate,
        some newRenewalToken, some renewableUntilDate⟩)
    | none => .ok (updated, ⟨row.id, newToken, row.user_id, some expirationDate,
        some newRenewalToken, some renewableUntilDate⟩)

/-- The WHERE clause of `SessionAdmin.purge`: `renewable_until < now` (false
for a null `renewable_until`, as in SQL). -/
def SessionAdmin.purgeDeletes (now : Int) (r : SessionRow) : Bool :=
  match r.renewable_until with
  | some ru => decide (ru < now)
  | none => false

/-- Embeds `SessionAdmin.purge`: delete every row whose `renewable_until` is
strictly before `now`. -/
def SessionAdmin.purge (db : SessionDb) (now : Int) : SessionDb :=
  db.filter (fun r => !SessionAdmin.purgeDeletes now r)

/-- Embeds `Session.updateLifetime`: recompute `expires = now + lifetime` and
`renewable_until = expires + renewalPeriod` from the current time, persist
them on the handle's row (by `id`), and update the handle's cached fields. -/
def Session.updateLifetime (s : Session) (db : SessionDb) (now : Int)
    (lifetime renewalPeriod : Lifetime) : SessionDb × Session :=
  let lifetimeMs := SessionAdmin.lifetimeToMs lifetime
  let expirationDate := now + lifetimeMs
  let renewableUntilDate := expirationDate + SessionAdmin.lifetimeToMs renewalPeriod
  (db.map (fun r =>
      if r.id = s.id then
        ⟨r.id, r.session_token, r.user_id, some expirationDate,
          r.renewal_token, some renewableUntilDate⟩
      else r),
   ⟨s.id, s.token, s.userId, some expirationDate, s.renewalToken,
      some renewableUntilDate⟩)

/-- The coordinator handle (`src/identity.ts`, class `Identity`): all that the
`atomicOperation` guard inspects is whether the underlying database handle is
transaction-scoped (`this.db.isTransaction`). -/
structure Identity where
  isTransaction : Bool
deriving DecidableEq, Repr

/-- Errors escaping `Identity.atomicOperation`: either its own
`IdentityNestedAtomicOperationError` or an error thrown by the callback,
re-raised unchanged. -/
inductive AtomicError (E : Type) where
  | nested : AtomicError E
  | callback : E → AtomicError E

/-- Embeds `Identity.atomicOperation` over an abstract database state `σ`: if
the coordinator's handle is already transaction-scoped, fail immediately with
the nested-atomic-operation error, touching nothing; otherwise run the
callback on a transaction-scoped coordinator (knex transaction handles report
`isTransaction = true`). The knex collaborator's transaction semantics are
modelled as: a callback that returns normally commits (its final state is
published), a callback that throws rolls back (the initial state is kept) and
the same error is re-raised. -/
def Identity.atomicOperation {σ E : Type} (i : Identity) (db : σ)
    (cb : Identity → σ → Except E σ) : Except (AtomicError E) Unit × σ :=
  if i.isTransaction then (.error .nested, db)
  else
    match cb ⟨true⟩ db with
    | .ok db2 => (.ok (), db2)
    | .error e => (.error (.callback e), db)

/-! Helper lemmas about the migration engine. -/

/-- Stepping up with the stored cursor at or beyond the migration list is a
no-op: storage untouched, zero writes. -/
theorem Schema.up_at_top {S : Type} (m : List (Migration S))
    (st : SchemaState S) (c : Nat) (hc : st.table = some c)
    (hlen : m.length ≤ c) : Schema.up m st = (false, st, 0) := by
  rcases st with ⟨tbl, s⟩
  cases hc
  unfold Schema.up Schema.getCurrentMigrationNumber
  simp [List.getElem?_eq_none hlen]

/-- Stepping up with the stored cursor at an existing migration index executes
that migration's body, stores cursor + 1 and reports success with 2 writes. -/
theorem Schema.up_step {S : Type} (m : List (Migration S))
    (st : SchemaState S) (c : Nat) (mig : Migration S)
    (hc : st.table = some c) (hm : m[c]? = some mig) :
    Schema.up m st = (true, ⟨some (c + 1), mig.up st.schema⟩, 2) := by
  rcases st with ⟨tbl, s⟩
  cases hc
  unfold Schema.up Schema.getCurrentMigrationNumber
  simp [hm]

/-- Stepping up when the migration table does not exist first creates the
table at cursor 0 (2 writes) and then behaves like a step from cursor 0. -/
theorem Schema.up_fresh {S : Type} (m : List (Migration S)) (s : S) :
    Schema.up m (⟨none, s⟩ : SchemaState S) =
      match m[0]? with
      | none => (false, ⟨some 0, s⟩, 2)
      | some mig => (true, ⟨some 1, mig.up s⟩, 4) := by
  unfold Schema.up Schema.getCurrentMigrationNumber
  cases hm : m[0]? with
  | none => simp [hm]
  | some mig => simp [hm]

/-- Unfolding lemma for `Schema.build` when `Schema.up` reports a no-op. -/
theorem Schema.build_stop {S : Type} (m : List (Migration S))
    (st st1 : SchemaState S) (w : Nat)
    (h : Schema.up m st = (false, st1, w)) :
    Schema.build m st = (st1, w) := by
  rw [Schema.build.eq_def, h]

/-- Unfolding lemma for `Schema.build` when `Schema.up` reports success. -/
theorem Schema.build_step {S : Type} (m : List (Migration S))
    (st st1 : SchemaState S) (w : Nat)
    (h : Schema.up m st = (true, st1, w)) :
    Schema.build m st = ((Schema.build m st1).1, w + (Schema.build m st1).2) := by
  rw [Schema.build.eq_def, h]

/-- With the stored cursor at or beyond the migration list, `Schema.build` is
a no-op performing zero writes. -/
theorem Schema.build_at_top {S : Type} (m : List (Migration S))
    (st : SchemaState S) (c : Nat) (hc : st.table = some c)
    (hlen : m.length ≤ c) : Schema.build m st = (st, 0) :=
  Schema.build_stop m st st 0 (Schema.up_at_top m st c hc hlen)

/-- Starting from any stored cursor that does not exceed the migration count,
`Schema.build` drives the stored cursor exactly to the migration count. -/
theorem Schema.build_cursor_of_le {S : Type} (m : List (Migration S)) :
    ∀ (k c : Nat) (st : SchemaState S), st.table = some c → c ≤ m.length →
      m.length ≤ c + k → ((Schema.build m st).1).table = some m.length := by
  intro k
  induction k with
  | zero =>
    intro c st hc h1 h2
    have hcm : c = m.length := by omega
    rw [Schema.build_at_top m st c hc (by omega)]
    rw [hc, hcm]
  | succ k ih =>
    intro c st hc h1 h2
    rcases eq_or_lt_of_le h1 with heq | hlt
    · rw [Schema.build_at_top m st c hc (by omega)]
      rw [hc, heq]
    · have hm : m[c]? = some (m.get ⟨c, hlt⟩) := by
        simp [List.getElem?_eq_getElem hlt]
      rw [Schema.build_step m st _ 2 (Schema.up_step m st c _ hc hm)]
      exact ih (c + 1) ⟨some (c + 1), (m.get ⟨c, hlt⟩).up st.schema⟩ rfl
        (by omega) (by omega)

/-- C7 (amended): for every migration list and every starting storage whose
stored cursor does not exceed the number of migrations (or whose migration
table does not exist yet), `Schema.build` brings the stored cursor exactly to
the number of migrations, and an immediately repeated `Schema.build` performs
zero writes (no schema mutation, no cursor write, table creation included)
and returns the storage unchanged. -/
theorem Schema.build_reaches_top_and_idempotent {S : Type}
    (m : List (Migration S)) (st : SchemaState S)
    (hc : st.table = none ∨ ∃ c, st.table = some c ∧ c ≤ m.length) :
    ((Schema.build m st).1).table = some m.length ∧
    Schema.build m (Schema.build m st).1 = ((Schema.build m st).1, 0) := by
  have h1 : ((Schema.build m st).1).table = some m.length := by
    rcases hc with hnone | ⟨c, hc, hle⟩
    · rcases st with ⟨tbl, s⟩
      cases hnone
      cases hm : m[0]? with
      | none =>
        have hlen : m.length = 0 := by
          have := List.getElem?_eq_none_iff.mp hm
          omega
        rw [Schema.build_stop m _ ⟨some 0, s⟩ 2 (by rw [Schema.up_fresh, hm])]
        simp [hlen]
      | some mig =>
        have h0 : 0 < m.length := by
          obtain ⟨h, _⟩ := List.getElem?_eq_some_iff.mp hm
          omega
        rw [Schema.build_step m _ ⟨some 1, mig.up s⟩ 4 (by rw [Schema.up_fresh, hm])]
        exact Schema.build_cursor_of_le m m.length 1 _ rfl (by omega) (by omega)
    · exact Schema.build_cursor_of_le m (m.length - c) c st hc hle (by omega)
  exact ⟨h1, Schema.build_at_top m _ m.length h1 (le_refl _)⟩

/-- C7 (counterexample to the unrestricted claim): with an empty migration
list and a stored cursor of 1, `Schema.build` is an immediate no-op and
leaves the cursor at 1 instead of bringing it to the migration count 0. -/
theorem Schema.build_not_reaching_top_from_above :
    ((Schema.build ([] : List (Migration Unit)) ⟨some 1, ()⟩).1).table = some 1 ∧
    some 1 ≠ some (List.length ([] : List (Migration Unit))) := by
  constructor
  · rw [Schema.build_at_top ([] : List (Migration Unit)) ⟨some 1, ()⟩ 1 rfl
      (by simp)]
  · simp

/-- C7 (witness): the amended claim applied to a concrete one-migration list
starting with no migration table. -/
theorem Schema.build_reaches_top_witness :
    ((Schema.build [(⟨Nat.succ, Nat.pred⟩ : Migration Nat)] ⟨none, 0⟩).1).table
      = some 1 :=
  (Schema.build_reaches_top_and_idempotent
    [(⟨Nat.succ, Nat.pred⟩ : Migration Nat)] ⟨none, 0⟩ (Or.inl rfl)).1

/-- C8: stepping up at a stored cursor below the migration count executes that
migration's body and increments the stored cursor by exactly one; at or above
the count it is a no-op that does not touch storage; `Schema.down` is
symmetric (a no-op at cursor 0, and at a positive cursor it executes the
previous migration's `down` body and decrements the cursor by one); and an
`up` step immediately followed by a `down` step restores the pre-`up` storage
exactly whenever the migration's `down` body inverts its `up` body. -/
theorem Schema.up_down_step_spec {S : Type} (m : List (Migration S)) :
    (∀ (st : SchemaState S) (c : Nat) (hcm : c < m.length),
      st.table = some c →
      Schema.up m st = (true, ⟨some (c + 1), (m.get ⟨c, hcm⟩).up st.schema⟩, 2)) ∧
    (∀ (st : SchemaState S) (c : Nat), st.table = some c → m.length ≤ c →
      Schema.up m st = (false, st, 0)) ∧
    (∀ st : SchemaState S, st.table = some 0 →
      Schema.down m st = (false, st, 0)) ∧
    (∀ (st : SchemaState S) (c : Nat) (hcm : c < m.length),
      st.table = some (c + 1) →
      Schema.down m st = (true, ⟨some c, (m.get ⟨c, hcm⟩).down st.schema⟩, 2)) ∧
    (∀ (st : SchemaState S) (c : Nat) (hcm : c < m.length),
      st.table = some c →
      (m.get ⟨c, hcm⟩).down ((m.get ⟨c, hcm⟩).up st.schema) = st.schema →
      Schema.down m (Schema.up m st).2.1 = (true, st, 2)) := by
  have hup : ∀ (st : SchemaState S) (c : Nat) (hcm : c < m.length),
      st.table = some c →
      Schema.up m st = (true, ⟨some (c + 1), (m.get ⟨c, hcm⟩).up st.schema⟩, 2) := by
    intro st c hcm hc
    exact Schema.up_step m st c _ hc (by simp [List.getElem?_eq_getElem hcm])
  have hdown : ∀ (st : SchemaState S) (c : Nat) (hcm : c < m.length),
      st.table = some (c + 1) →
      Schema.down m st = (true, ⟨some c, (m.get ⟨c, hcm⟩).down st.schema⟩, 2) := by
    intro st c hcm hc
    rcases st with ⟨tbl, s⟩
    cases hc
    unfold Schema.down Schema.getCurrentMigrationNumber
    simp [List.getElem?_eq_getElem hcm]
  refine ⟨hup, ?_, ?_, hdown, ?_⟩
  · intro st c hc hlen
    exact Schema.up_at_top m st c hc hlen
  · intro st hc
    rcases st with ⟨tbl, s⟩
    cases hc
    unfold Schema.down Schema.getCurrentMigrationNumber
    simp
  · intro st c hcm hc hinv
    rw [hup st c hcm hc]
    have := hdown ⟨some (c + 1), (m.get ⟨c, hcm⟩).up st.schema⟩ c hcm rfl
    simp only at this
    rw [this, hinv, hc.symm]

/-- C8 (witness): the step and round-trip properties applied to a concrete
one-migration list over `Nat` whose `down` body inverts its `up` body. -/
theorem Schema.up_down_step_witness :
    Schema.up [(⟨Nat.succ, Nat.pred⟩ : Migration Nat)] ⟨some 0, 5⟩ =
      (true, ⟨some 1, 6⟩, 2) ∧
    Schema.up [(⟨Nat.succ, Nat.pred⟩ : Migration Nat)] ⟨some 1, 6⟩ =
      (false, ⟨some 1, 6⟩, 0) ∧
    Schema.down [(⟨Nat.succ, Nat.pred⟩ : Migration Nat)] ⟨some 0, 5⟩ =
      (false, ⟨some 0, 5⟩, 0) ∧
    Schema.down [(⟨Nat.succ, Nat.pred⟩ : Migration Nat)]
      (Schema.up [(⟨Nat.succ, Nat.pred⟩ : Migration Nat)] ⟨some 0, 5⟩).2.1 =
      (true, ⟨some 0, 5⟩, 2) := by
  obtain ⟨h1, h2, h3, _, h5⟩ :=
    Schema.up_down_step_spec [(⟨Nat.succ, Nat.pred⟩ : Migration Nat)]
  refine ⟨?_, h2 ⟨some 1, 6⟩ 1 rfl (by simp), h3 ⟨some 0, 5⟩ rfl,
    h5 ⟨some 0, 5⟩ 0 (by simp) rfl rfl⟩
  have := h1 ⟨some 0, 5⟩ 0 (by simp) rfl
  simpa using this

/-! Helper lemmas about the session store. -/

/-- Two rows of a well-formed table with the same session token are the same
row. -/
theorem SessionDb.eq_of_token {db : SessionDb} (hwf : SessionDb.wellFormed db)
    {a b : SessionRow} (ha : a ∈ db) (hb : b ∈ db)
    (ht : a.session_token = b.session_token) : a = b := by
  by_contra hne
  have hsym : Symmetric (fun a b : SessionRow =>
      a.id ≠ b.id ∧ a.session_token ≠ b.session_token) := by
    intro x y hxy
    exact ⟨hxy.1.symm, hxy.2.symm⟩
  exact (List.Pairwise.forall hsym hwf ha hb hne).2 ht

/-- Two rows of a well-formed table with the same surrogate id are the same
row. -/
theorem SessionDb.eq_of_id {db : SessionDb} (hwf : SessionDb.wellFormed db)
    {a b : SessionRow} (ha : a ∈ db) (hb : b ∈ db)
    (hid : a.id = b.id) : a = b := by
  by_contra hne
  have hsym : Symmetric (fun a b : SessionRow =>
      a.id ≠ b.id ∧ a.session_token ≠ b.session_token) := by
    intro x y hxy
    exact ⟨hxy.1.symm, hxy.2.symm⟩
  exact (List.Pairwise.forall hsym hwf ha hb hne).1 hid

/-- Unfolds `SessionAdmin.tokenMatch` to a propositional equality. -/
theorem SessionAdmin.tokenMatch_iff (t : String) (r : SessionRow) :
    SessionAdmin.tokenMatch t r = true ↔ r.session_token = t := by
  simp [SessionAdmin.tokenMatch]

/-- Unfolds `SessionAdmin.renewMatch` to a propositional conjunction. -/
theorem SessionAdmin.renewMatch_iff (t rt : String) (r : SessionRow) :
    SessionAdmin.renewMatch t rt r = true ↔
      r.session_token = t ∧ r.renewal_token = some rt := by
  simp [SessionAdmin.renewMatch]

/-- Unfolds `SessionAdmin.purgeDeletes` to a propositional existential. -/
theorem SessionAdmin.purgeDeletes_iff (now : Int) (r : SessionRow) :
    SessionAdmin.purgeDeletes now r = true ↔
      ∃ ru, r.renewable_until = some ru ∧ ru < now := by
  unfold SessionAdmin.purgeDeletes
  cases r.renewable_until <;> simp

/-- Looking a member row of a well-formed table up by its own session token
finds exactly that row. -/
theorem SessionDb.find?_token_of_mem {db : SessionDb}
    (hwf : SessionDb.wellFormed db) {r : SessionRow} (hr : r ∈ db) :
    db.find? (SessionAdmin.tokenMatch r.session_token) = some r := by
  cases hf : db.find? (SessionAdmin.tokenMatch r.session_token) with
  | none =>
    exact absurd ((SessionAdmin.tokenMatch_iff _ r).mpr rfl)
      (by simpa using List.find?_eq_none.mp hf r hr)
  | some a =>
    have ht := (SessionAdmin.tokenMatch_iff _ a).mp (List.find?_some hf)
    rw [SessionDb.eq_of_token hwf (List.mem_of_find?_eq_some hf) hr ht]

/-- Searching the image of a list under `f` finds the image of the unique
element whose image satisfies the predicate. -/
theorem find?_map_of_unique {α β : Type} (f : α → β) (p : β → Bool) :
    ∀ (l : List α) (a : α), a ∈ l → p (f a) = true →
      (∀ x ∈ l, x ≠ a → p (f x) = false) →
      (l.map f).find? p = some (f a) := by
  intro l
  induction l with
  | nil => intro a ha _ _; simp at ha
  | cons h t ih =>
    intro a ha hpa hothers
    by_cases heq : h = a
    · subst heq
      simp [List.find?_cons_of_pos _ hpa]
    · have hat : a ∈ t := by
        rcases List.mem_cons.mp ha with h1 | h1
        · exact absurd h1.symm heq
        · exact h1
      have hph : p (f h) = false := hothers h (by simp) heq
      simp only [List.map_cons]
      rw [List.find?_cons_of_neg _ (by simp [hph])]
      exact ih a hat hpa (fun x hx hxa => hothers x (by simp [hx]) hxa)

/-- C4: `open` fails with `SessionInvalidError` exactly when no stored row
carries the token; it fails with `SessionExpiredError` exactly when a stored
row carries the token but its `expires` is non-null and strictly earlier than
`now`; and on a row whose `expires` is null, equal to `now`, or later than
`now`, it returns a handle reflecting the row's current stored fields. -/
theorem SessionAdmin.openSession_spec (db : SessionDb) (now : Int) (t : String)
    (hwf : SessionDb.wellFormed db) :
    (SessionAdmin.openSession db now t = .error .invalid ↔
      ¬ ∃ r ∈ db, r.session_token = t) ∧
    (SessionAdmin.openSession db now t = .error .expired ↔
      ∃ r ∈ db, r.session_token = t ∧ ∃ e, r.expires = some e ∧ e < now) ∧
    (∀ r ∈ db, r.session_token = t →
      (r.expires = none ∨ ∃ e, r.expires = some e ∧ now ≤ e) →
      SessionAdmin.openSession db now t =
        .ok ⟨r.id, r.session_token, r.user_id, r.expires, r.renewal_token,
          r.renewable_until⟩) := by
  cases hf : db.find? (SessionAdmin.tokenMatch t) with
  | none =>
    have hnone : ∀ x ∈ db, x.session_token ≠ t := by
      intro x hx
      simpa [SessionAdmin.tokenMatch] using List.find?_eq_none.mp hf x hx
    have hopen : SessionAdmin.openSession db now t = .error .invalid := by
      unfold SessionAdmin.openSession
      rw [hf]
    rw [hopen]
    refine ⟨⟨fun _ => ?_, fun _ => rfl⟩, ⟨fun h => by simp at h, fun h => ?_⟩, ?_⟩
    · rintro ⟨r, hr, hrt⟩
      exact hnone r hr hrt
    · obtain ⟨r, hr, hrt, _⟩ := h
      exact absurd hrt (hnone r hr)
    · intro r hr hrt _
      exact absurd hrt (hnone r hr)
  | some row =>
    have hmem := List.mem_of_find?_eq_some hf
    have hrt : row.session_token = t := by
      simpa [SessionAdmin.tokenMatch] using List.find?_some hf
    have huniq : ∀ r ∈ db, r.session_token = t → r = row := by
      intro r hr h
      exact SessionDb.eq_of_token hwf hr hmem (h.trans hrt.symm)
    cases he : row.expires with
    | some e =>
      by_cases hlt : e < now
      · have hopen : SessionAdmin.openSession db now t = .error .expired := by
          unfold SessionAdmin.openSession
          rw [hf]
          simp [he, hlt]
        rw [hopen]
        refine ⟨⟨fun h => by simp at h, fun h => absurd ⟨row, hmem, hrt⟩ h⟩,
          ⟨fun _ => ⟨row, hmem, hrt, e, he, hlt⟩, fun _ => rfl⟩, ?_⟩
        intro r hr hrtok hval
        rw [huniq r hr hrtok] at hval
        rcases hval with h0 | ⟨e2, he2, hle⟩
        · rw [h0] at he
          exact absurd he (by simp)
        · rw [he2] at he
          have : e2 = e := by injection he
          omega
      · have hopen : SessionAdmin.openSession db now t =
            .ok ⟨row.id, row.session_token, row.user_id, some e,
              row.renewal_token, row.renewable_until⟩ := by
          unfold SessionAdmin.openSession
          rw [hf]
          simp [he, hlt]
        rw [hopen]
        refine ⟨⟨fun h => by simp at h, fun h => absurd ⟨row, hmem, hrt⟩ h⟩,
          ⟨fun h => by simp at h, fun h => ?_⟩, ?_⟩
        · obtain ⟨r, hr, hrtok, e2, he2, hlt2⟩ := h
          rw [huniq r hr hrtok] at he2
          rw [he2] at he
          have : e2 = e := by injection he
          omega
        · intro r hr hrtok _
          rw [huniq r hr hrtok, he]
    | none =>
      have hopen : SessionAdmin.openSession db now t =
          .ok ⟨row.id, row.session_token, row.user_id, none,
            row.renewal_token, row.renewable_until⟩ := by
        unfold SessionAdmin.openSession
        rw [hf]
        simp [he]
      rw [hopen]
      refine ⟨⟨fun h => by simp at h, fun h => absurd ⟨row, hmem, hrt⟩ h⟩,
        ⟨fun h => by simp at h, fun h => ?_⟩, ?_⟩
      · obtain ⟨r, hr, hrtok, e2, he2, _⟩ := h
        rw [huniq r hr hrtok] at he2
        rw [he2] at he
        exact absurd he (by simp)
      · intro r hr hrtok _
        rw [huniq r hr hrtok, he]

/-- C4 (witness): the characterization applied to a concrete one-row table,
an unknown token, an expired lookup and a boundary lookup at the exact
expiration instant. -/
theorem SessionAdmin.openSession_spec_witness :
    SessionAdmin.openSession [⟨1, "a", none, some 10, some "r", some 100⟩]
        50 "c" = .error .invalid ∧
    SessionAdmin.openSession [⟨1, "a", none, some 10, some "r", some 100⟩]
        50 "a" = .error .expired ∧
    SessionAdmin.openSession [⟨1, "a", none, some 50, some "r", some 100⟩]
        50 "a" = .ok ⟨1, "a", none, some 50, some "r", some 100⟩ := by
  refine ⟨(SessionAdmin.openSession_spec
      [⟨1, "a", none, some 10, some "r", some 100⟩] 50 "c"
      (by decide)).1.mpr (by decide), ?_, ?_⟩
  · exact (SessionAdmin.openSession_spec
      [⟨1, "a", none, some 10, some "r", some 100⟩] 50 "a"
      (by decide)).2.1.mpr
      ⟨⟨1, "a", none, some 10, some "r", some 100⟩, by decide, rfl, 10, rfl,
        by decide⟩
  · exact (SessionAdmin.openSession_spec
      [⟨1, "a", none, some 50, some "r", some 100⟩] 50 "a"
      (by decide)).2.2 ⟨1, "a", none, some 50, some "r", some 100⟩ (by decide)
      rfl (Or.inr ⟨50, rfl, by decide⟩)

/-- When the renewal pair lookup finds a row whose renewal window has not
elapsed (or is null), `renew` succeeds. -/
theorem SessionAdmin.renew_ok_of_window (db : SessionDb) (now : Int)
    (t : String) (L : Lifetime) (r : String) (R : Lifetime) (nt nrt : String)
    (row : SessionRow)
    (hf : db.find? (SessionAdmin.renewMatch t r) = some row)
    (hwin : row.renewable_until = none ∨
      ∃ ru, row.renewable_until = some ru ∧ now ≤ ru) :
    ∃ res, SessionAdmin.renew db now t L r R nt nrt = .ok res := by
  cases hres : SessionAdmin.renew db now t L r R nt nrt with
  | ok res => exact ⟨res, rfl⟩
  | error e =>
    exfalso
    unfold SessionAdmin.renew at hres
    rw [hf] at hres
    rcases hwin with h0 | ⟨ru, hru, hle⟩
    · simp [h0] at hres
    · simp only [hru] at hres
      rw [if_neg (by omega)] at hres
      exact absurd hres (by simp)

/-- C2: `renew` fails with `SessionRenewalError` exactly when no stored row
matches the `(token, renewalToken)` pair, or the matching row's
`renewable_until` is non-null and strictly in the past; in particular it
succeeds on a matching row — regardless of `expires` — whenever
`renewable_until` is null or has not elapsed. -/
theorem SessionAdmin.renew_error_characterization (db : SessionDb) (now : Int)
    (t : String) (L : Lifetime) (r : String) (R : Lifetime) (nt nrt : String)
    (hwf : SessionDb.wellFormed db) :
    (SessionAdmin.renew db now t L r R nt nrt = .error .renewal ↔
      (¬ ∃ row ∈ db, SessionAdmin.renewMatch t r row = true) ∨
      (∃ row ∈ db, SessionAdmin.renewMatch t r row = true ∧
        ∃ ru, row.renewable_until = some ru ∧ ru < now)) ∧
    (∀ row ∈ db, SessionAdmin.renewMatch t r row = true →
      (row.renewable_until = none ∨
        ∃ ru, row.renewable_until = some ru ∧ now ≤ ru) →
      ∃ res, SessionAdmin.renew db now t L r R nt nrt = .ok res) := by
  cases hf : db.find? (SessionAdmin.renewMatch t r) with
  | none =>
    have hnone : ∀ x ∈ db, ¬ SessionAdmin.renewMatch t r x = true := by
      intro x hx
      simpa using List.find?_eq_none.mp hf x hx
    have hren : SessionAdmin.renew db now t L r R nt nrt = .error .renewal := by
      unfold SessionAdmin.renew
      rw [hf]
    refine ⟨?_, ?_⟩
    · rw [hren]
      refine ⟨fun _ => Or.inl ?_, fun _ => rfl⟩
      rintro ⟨row, hrow, hm⟩
      exact hnone row hrow hm
    · intro row hrow hm _
      exact absurd hm (hnone row hrow)
  | some row =>
    have hmem := List.mem_of_find?_eq_some hf
    have hm := List.find?_some hf
    have huniq : ∀ x ∈ db, SessionAdmin.renewMatch t r x = true → x = row := by
      intro x hx hmx
      exact SessionDb.eq_of_token hwf hx hmem
        (((SessionAdmin.renewMatch_iff t r x).mp hmx).1.trans
          ((SessionAdmin.renewMatch_iff t r row).mp hm).1.symm)
    have hsucceeds : (row.renewable_until = none ∨
        ∃ ru, row.renewable_until = some ru ∧ now ≤ ru) →
        ∃ res, SessionAdmin.renew db now t L r R nt nrt = .ok res :=
      SessionAdmin.renew_ok_of_window db now t L r R nt nrt row hf
    cases hru : row.renewable_until with
    | some ru =>
      by_cases hlt : ru < now
      · have hren : SessionAdmin.renew db now t L r R nt nrt =
            .error .renewal := by
          unfold SessionAdmin.renew
          rw [hf]
          simp only [hru]
          rw [if_pos (by omega)]
        refine ⟨?_, ?_⟩
        · rw [hren]
          exact ⟨fun _ => Or.inr ⟨row, hmem, hm, ru, hru, hlt⟩, fun _ => rfl⟩
        · intro x hx hmx hwin
          rw [huniq x hx hmx] at hwin
          rcases hwin with h0 | ⟨ru2, hru2, hle⟩
          · rw [h0] at hru
            exact absurd hru (by simp)
          · rw [hru] at hru2
            have : ru = ru2 := by injection hru2
            omega
      · obtain ⟨res, hok⟩ := hsucceeds (Or.inr ⟨ru, hru, by omega⟩)
        refine ⟨?_, fun x hx hmx _ => ⟨res, hok⟩⟩
        rw [hok]
        constructor
        · intro h
          simp at h
        · rintro (hno | ⟨x, hx, hmx, ru2, hru2, hlt2⟩)
          · exact absurd ⟨row, hmem, hm⟩ hno
          · rw [huniq x hx hmx] at hru2
            rw [hru] at hru2
            have : ru = ru2 := by injection hru2
            omega
    | none =>
      obtain ⟨res, hok⟩ := hsucceeds (Or.inl hru)
      refine ⟨?_, fun x hx hmx _ => ⟨res, hok⟩⟩
      rw [hok]
      constructor
      · intro h
        simp at h
      · rintro (hno | ⟨x, hx, hmx, ru2, hru2, _⟩)
        · exact absurd ⟨row, hmem, hm⟩ hno
        · rw [huniq x hx hmx] at hru2
          rw [hru] at hru2
          exact absurd hru2.symm (by simp)

/-- C2 (witness): renewal succeeds on an already-expired session whose
renewal window is still open, and fails once the window has elapsed or when
the pair does not match. -/
theorem SessionAdmin.renew_error_characterization_witness :
    (∃ res, SessionAdmin.renew [⟨1, "a", none, some 0, some "r", some 100⟩]
      50 "a" Lifetime.zero "r" Lifetime.zero "b" "s" = .ok res) ∧
    SessionAdmin.renew [⟨1, "a", none, some 0, some "r", some 40⟩]
      50 "a" Lifetime.zero "r" Lifetime.zero "b" "s" = .error .renewal ∧
    SessionAdmin.renew [⟨1, "a", none, some 0, some "r", some 100⟩]
      50 "a" Lifetime.zero "wrong" Lifetime.zero "b" "s" = .error .renewal := by
  refine ⟨(SessionAdmin.renew_error_characterization
      [⟨1, "a", none, some 0, some "r", some 100⟩] 50 "a" Lifetime.zero "r"
      Lifetime.zero "b" "s" (by decide)).2
      ⟨1, "a", none, some 0, some "r", some 100⟩ (by decide) (by decide)
      (Or.inr ⟨100, rfl, by decide⟩), ?_, ?_⟩
  · exact (SessionAdmin.renew_error_characterization
      [⟨1, "a", none, some 0, some "r", some 40⟩] 50 "a" Lifetime.zero "r"
      Lifetime.zero "b" "s" (by decide)).1.mpr
      (Or.inr ⟨⟨1, "a", none, some 0, some "r", some 40⟩, by decide, by decide,
        40, rfl, by decide⟩)
  · exact (SessionAdmin.renew_error_characterization
      [⟨1, "a", none, some 0, some "r", some 100⟩] 50 "a" Lifetime.zero
      "wrong" Lifetime.zero "b" "s" (by decide)).1.mpr
      (Or.inl (by decide))

/-- C3: a successful `renew` on a well-formed table — with the two freshly
generated tokens distinct from every stored token and from the presented
renewal token, as the 160-bit random generation guarantees — updates the
matching row in place (same surrogate id, same `user_id`, no row added or
removed, all other rows untouched), issues a session token and a renewal
token that both differ from the old values, and afterwards `open` on the old
token fails with `SessionInvalidError` while `open` on the new token succeeds
(the new lifetime being positive) returning the renewed handle. -/
theorem SessionAdmin.renew_success_rotation (db db2 : SessionDb) (now : Int)
    (t r nt nrt : String) (L R : Lifetime) (s : Session)
    (hwf : SessionDb.wellFormed db)
    (hok : SessionAdmin.renew db now t L r R nt nrt = .ok (db2, s))
    (hfresh : ∀ x ∈ db, x.session_token ≠ nt)
    (hnrt : nrt ≠ r)
    (hL : 0 < SessionAdmin.lifetimeToMs L) :
    (∃ row ∈ db, SessionAdmin.renewMatch t r row = true ∧ s.id = row.id ∧
      s.userId = row.user_id ∧ db2.length = db.length ∧
      (∀ x ∈ db, x.id ≠ row.id → x ∈ db2) ∧
      (⟨row.id, nt, row.user_id, some (now + SessionAdmin.lifetimeToMs L),
        some nrt, some (now + SessionAdmin.lifetimeToMs L +
          SessionAdmin.lifetimeToMs R)⟩ : SessionRow) ∈ db2) ∧
    s.token = nt ∧ s.token ≠ t ∧ s.renewalToken = some nrt ∧
    s.renewalToken ≠ some r ∧
    SessionAdmin.openSession db2 now t = .error .invalid ∧
    SessionAdmin.openSession db2 now nt = .ok s := by
  cases hf : db.find? (SessionAdmin.renewMatch t r) with
  | none =>
    unfold SessionAdmin.renew at hok
    rw [hf] at hok
    exact absurd hok (by simp)
  | some row =>
    have hmem := List.mem_of_find?_eq_some hf
    have hmatch := List.find?_some hf
    have htok : row.session_token = t :=
      ((SessionAdmin.renewMatch_iff t r row).mp hmatch).1
    have hnt : nt ≠ t := by
      intro h
      exact hfresh row hmem (htok.trans h.symm)
    have hok2 : db2 = db.map (fun x =>
        if x.id = row.id then
          ⟨x.id, nt, x.user_id, some (now + SessionAdmin.lifetimeToMs L),
            some nrt, some (now + SessionAdmin.lifetimeToMs L +
              SessionAdmin.lifetimeToMs R)⟩
        else x) ∧
        s = ⟨row.id, nt, row.user_id,
          some (now + SessionAdmin.lifetimeToMs L), some nrt,
          some (now + SessionAdmin.lifetimeToMs L +
            SessionAdmin.lifetimeToMs R)⟩ := by
      unfold SessionAdmin.renew at hok
      rw [hf] at hok
      cases hru : row.renewable_until with
      | some ru =>
        simp only [hru] at hok
        by_cases hlt : now > ru
        · rw [if_pos hlt] at hok
          exact absurd hok (by simp)
        · rw [if_neg hlt] at hok
          have h1 := Except.ok.inj hok
          injection h1 with ha hb
          exact ⟨ha.symm, hb.symm⟩
      | none =>
        simp only [hru] at hok
        have h1 := Except.ok.inj hok
        injection h1 with ha hb
        exact ⟨ha.symm, hb.symm⟩
    obtain ⟨hdb2, hs⟩ := hok2
    have hrowuniq : ∀ x ∈ db, x.id = row.id → x = row := by
      intro x hx hid
      exact SessionDb.eq_of_id hwf hx hmem hid
    refine ⟨⟨row, hmem, hmatch, by rw [hs], by rw [hs], by rw [hdb2]; simp,
      ?_, ?_⟩, by rw [hs], by rw [hs]; exact hnt, by rw [hs],
      by rw [hs]; simp [hnrt], ?_, ?_⟩
    · intro x hx hxid
      rw [hdb2]
      exact List.mem_map.mpr ⟨x, hx, by rw [if_neg hxid]⟩
    · rw [hdb2]
      exact List.mem_map.mpr ⟨row, hmem, by rw [if_pos rfl]⟩
    · have hfnone : db2.find? (SessionAdmin.tokenMatch t) = none := by
        apply List.find?_eq_none.mpr
        intro y hy
        rw [hdb2] at hy
        obtain ⟨x, hx, hfx⟩ := List.mem_map.mp hy
        by_cases hid : x.id = row.id
        · rw [if_pos hid] at hfx
          rw [← hfx]
          simp [SessionAdmin.tokenMatch, hnt]
        · rw [if_neg hid] at hfx
          rw [← hfx]
          simp only [SessionAdmin.tokenMatch, beq_iff_eq]
          intro hxt
          exact hid (congrArg SessionRow.id
            (SessionDb.eq_of_token hwf hx hmem (hxt.trans htok.symm)))
      unfold SessionAdmin.openSession
      rw [hfnone]
    · have hffound : db2.find? (SessionAdmin.tokenMatch nt) =
          some ⟨row.id, nt, row.user_id,
            some (now + SessionAdmin.lifetimeToMs L), some nrt,
            some (now + SessionAdmin.lifetimeToMs L +
              SessionAdmin.lifetimeToMs R)⟩ := by
        rw [hdb2]
        have := find?_map_of_unique (fun x : SessionRow =>
            if x.id = row.id then
              (⟨x.id, nt, x.user_id, some (now + SessionAdmin.lifetimeToMs L),
                some nrt, some (now + SessionAdmin.lifetimeToMs L +
                  SessionAdmin.lifetimeToMs R)⟩ : SessionRow)
            else x)
          (SessionAdmin.tokenMatch nt) db row hmem
          (by simp [SessionAdmin.tokenMatch])
          (fun x hx hxr => by
            have hid : ¬ x.id = row.id := fun hid2 => hxr (hrowuniq x hx hid2)
            simp [SessionAdmin.tokenMatch, hid, hfresh x hx])
        simpa using this
      unfold SessionAdmin.openSession
      rw [hffound]
      simp only
      rw [if_neg (by omega), hs]

/-- C3 (witness): the rotation applied to a concrete expired-but-renewable
single-row table with concrete fresh tokens. -/
theorem SessionAdmin.renew_success_rotation_witness :
    SessionAdmin.openSession [⟨1, "b", none, some 60, some "s", some 60⟩]
        50 "a" = .error .invalid ∧
    SessionAdmin.openSession [⟨1, "b", none, some 60, some "s", some 60⟩]
        50 "b" = .ok ⟨1, "b", none, some 60, some "s", some 60⟩ := by
  have h := SessionAdmin.renew_success_rotation
    [⟨1, "a", none, some 0, some "r", some 100⟩]
    [⟨1, "b", none, some 60, some "s", some 60⟩] 50 "a" "r" "b" "s"
    { Lifetime.zero with milliseconds := some 10 } Lifetime.zero
    ⟨1, "b", none, some 60, some "s", some 60⟩
    (by decide) rfl (by decide) (by decide) (by decide)
  exact ⟨h.2.2.2.2.2.1, h.2.2.2.2.2.2⟩

/-- C5: `purge` keeps exactly the rows whose `renewable_until` is null or has
not elapsed (so a row with a null `renewable_until` is never deleted), leaves
every surviving row's `open` behaviour — including a correct
`SessionExpiredError` — exactly as before, and an immediately repeated
`purge` deletes nothing. -/
theorem SessionAdmin.purge_spec (db : SessionDb) (now : Int)
    (hwf : SessionDb.wellFormed db) :
    (∀ r : SessionRow, r ∈ SessionAdmin.purge db now ↔
      r ∈ db ∧ ¬ ∃ ru, r.renewable_until = some ru ∧ ru < now) ∧
    (∀ r ∈ db, r.renewable_until = none → r ∈ SessionAdmin.purge db now) ∧
    (∀ r ∈ db, (¬ ∃ ru, r.renewable_until = some ru ∧ ru < now) →
      ∀ now2 : Int,
        SessionAdmin.openSession (SessionAdmin.purge db now) now2
          r.session_token =
        SessionAdmin.openSession db now2 r.session_token) ∧
    SessionAdmin.purge (SessionAdmin.purge db now) now =
      SessionAdmin.purge db now := by
  have hmem : ∀ r : SessionRow, r ∈ SessionAdmin.purge db now ↔
      r ∈ db ∧ ¬ ∃ ru, r.renewable_until = some ru ∧ ru < now := by
    intro r
    unfold SessionAdmin.purge
    rw [List.mem_filter]
    constructor
    · rintro ⟨h1, h2⟩
      refine ⟨h1, fun hdel => ?_⟩
      rw [(SessionAdmin.purgeDeletes_iff now r).mpr hdel] at h2
      exact absurd h2 (by simp)
    · rintro ⟨h1, h2⟩
      refine ⟨h1, ?_⟩
      cases hd : SessionAdmin.purgeDeletes now r with
      | false => simp
      | true => exact absurd ((SessionAdmin.purgeDeletes_iff now r).mp hd) h2
  have hwf2 : SessionDb.wellFormed (SessionAdmin.purge db now) :=
    List.Pairwise.filter _ hwf
  refine ⟨hmem, ?_, ?_, ?_⟩
  · intro r hr h0
    exact (hmem r).mpr ⟨hr, by simp [h0]⟩
  · intro r hr hkeep now2
    have hr2 : r ∈ SessionAdmin.purge db now := (hmem r).mpr ⟨hr, hkeep⟩
    have hf2 : (SessionAdmin.purge db now).find?
        (SessionAdmin.tokenMatch r.session_token) = some r :=
      SessionDb.find?_token_of_mem hwf2 hr2
    have hf1 : db.find? (SessionAdmin.tokenMatch r.session_token) = some r :=
      SessionDb.find?_token_of_mem hwf hr
    unfold SessionAdmin.openSession
    rw [hf1, hf2]
  · unfold SessionAdmin.purge
    rw [List.filter_filter]
    apply List.filter_congr
    intro x _
    simp [Bool.and_self]

/-- C5 (witness): purge selectivity on a concrete four-row table with renewal
windows {future, null, past, past}: exactly the elapsed windows are deleted
and the survivors open exactly as before. -/
theorem SessionAdmin.purge_spec_witness :
    (⟨2, "b", none, some 10, none, none⟩ : SessionRow) ∈
      SessionAdmin.purge
        [⟨1, "a", none, some 90, some "r", some 100⟩,
         ⟨2, "b", none, some 10, none, none⟩,
         ⟨3, "c", none, some 10, some "r", some 40⟩,
         ⟨4, "d", none, some 10, some "r", some 45⟩] 50 ∧
    ¬ (⟨3, "c", none, some 10, some "r", some 40⟩ : SessionRow) ∈
      SessionAdmin.purge
        [⟨1, "a", none, some 90, some "r", some 100⟩,
         ⟨2, "b", none, some 10, none, none⟩,
         ⟨3, "c", none, some 10, some "r", some 40⟩,
         ⟨4, "d", none, some 10, some "r", some 45⟩] 50 ∧
    SessionAdmin.openSession (SessionAdmin.purge
        [⟨1, "a", none, some 90, some "r", some 100⟩,
         ⟨2, "b", none, some 10, none, none⟩,
         ⟨3, "c", none, some 10, some "r", some 40⟩,
         ⟨4, "d", none, some 10, some "r", some 45⟩] 50) 50 "a" =
      SessionAdmin.openSession
        [⟨1, "a", none, some 90, some "r", some 100⟩,
         ⟨2, "b", none, some 10, none, none⟩,
         ⟨3, "c", none, some 10, some "r", some 40⟩,
         ⟨4, "d", none, some 10, some "r", some 45⟩] 50 "a" := by
  have h := SessionAdmin.purge_spec
    [⟨1, "a", none, some 90, some "r", some 100⟩,
     ⟨2, "b", none, some 10, none, none⟩,
     ⟨3, "c", none, some 10, some "r", some 40⟩,
     ⟨4, "d", none, some 10, some "r", some 45⟩] 50 (by decide)
  refine ⟨h.2.1 ⟨2, "b", none, some 10, none, none⟩ (by decide) rfl,
    fun hmem => ?_,
    h.2.2.1 ⟨1, "a", none, some 90, some "r", some 100⟩ (by decide)
      (by decide) 50⟩
  have := ((h.1 ⟨3, "c", none, some 10, some "r", some 40⟩).mp hmem).2
  exact this ⟨40, rfl, by decide⟩

/-- C9: `updateLifetime` stores `expires = now + lifetime` and
`renewable_until = (now + lifetime) + renewalPeriod`, both computed from the
current time and not from the previous `expires`, updates the handle's cached
fields in the same way, and leaves every other row untouched; a repeated call
with the same arguments at a later time `now2` is not cumulative — it resets
the stored and cached expiration to `now2 + lifetime`, independent of the
first call's time. -/
theorem Session.updateLifetime_resets_clock (db : SessionDb) (s : Session)
    (now now2 : Int) (L R : Lifetime) :
    ((s.updateLifetime db now L R).2.expirationDate =
        some (now + SessionAdmin.lifetimeToMs L) ∧
      (s.updateLifetime db now L R).2.renewableUntil =
        some (now + SessionAdmin.lifetimeToMs L +
          SessionAdmin.lifetimeToMs R) ∧
      (s.updateLifetime db now L R).2.id = s.id ∧
      (s.updateLifetime db now L R).2.token = s.token ∧
      (∀ r ∈ db, r.id = s.id →
        (⟨r.id, r.session_token, r.user_id,
          some (now + SessionAdmin.lifetimeToMs L), r.renewal_token,
          some (now + SessionAdmin.lifetimeToMs L +
            SessionAdmin.lifetimeToMs R)⟩ : SessionRow) ∈
          (s.updateLifetime db now L R).1) ∧
      (∀ r ∈ db, r.id ≠ s.id → r ∈ (s.updateLifetime db now L R).1)) ∧
    (((s.updateLifetime db now L R).2.updateLifetime
        (s.updateLifetime db now L R).1 now2 L R).2.expirationDate =
      some (now2 + SessionAdmin.lifetimeToMs L) ∧
      (∀ r ∈ db, r.id = s.id →
        (⟨r.id, r.session_token, r.user_id,
          some (now2 + SessionAdmin.lifetimeToMs L), r.renewal_token,
          some (now2 + SessionAdmin.lifetimeToMs L +
            SessionAdmin.lifetimeToMs R)⟩ : SessionRow) ∈
          ((s.updateLifetime db now L R).2.updateLifetime
            (s.updateLifetime db now L R).1 now2 L R).1)) := by
  unfold Session.updateLifetime
  refine ⟨⟨rfl, rfl, rfl, rfl, fun r hr hid => ?_, fun r hr hid => ?_⟩,
    rfl, fun r hr hid => ?_⟩
  · exact List.mem_map.mpr ⟨r, hr, by simp [hid]⟩
  · exact List.mem_map.mpr ⟨r, hr, by simp [hid]⟩
  · exact List.mem_map.mpr ⟨_, List.mem_map.mpr ⟨r, hr, rfl⟩, by simp [hid]⟩

/-- C9 (witness): the clock reset applied to a concrete one-row table, two
calls at times 100 and 200 with a 10 ms lifetime and 5 ms renewal period:
the stored row ends at expires 210, not 110 + 10. -/
theorem Session.updateLifetime_resets_clock_witness :
    (⟨1, "a", none, some 110, some "r", some 115⟩ : SessionRow) ∈
      ((⟨1, "a", none, some 0, some "r", some 5⟩ : Session).updateLifetime
        [⟨1, "a", none, some 0, some "r", some 5⟩] 100
        { Lifetime.zero with milliseconds := some 10 }
        { Lifetime.zero with milliseconds := some 5 }).1 ∧
    (⟨1, "a", none, some 210, some "r", some 215⟩ : SessionRow) ∈
      (((⟨1, "a", none, some 0, some "r", some 5⟩ : Session).updateLifetime
          [⟨1, "a", none, some 0, some "r", some 5⟩] 100
          { Lifetime.zero with milliseconds := some 10 }
          { Lifetime.zero with milliseconds := some 5 }).2.updateLifetime
        ((⟨1, "a", none, some 0, some "r", some 5⟩ : Session).updateLifetime
          [⟨1, "a", none, some 0, some "r", some 5⟩] 100
          { Lifetime.zero with milliseconds := some 10 }
          { Lifetime.zero with milliseconds := some 5 }).1 200
        { Lifetime.zero with milliseconds := some 10 }
        { Lifetime.zero with milliseconds := some 5 }).1 := by
  have h := Session.updateLifetime_resets_clock
    [⟨1, "a", none, some 0, some "r", some 5⟩]
    ⟨1, "a", none, some 0, some "r", some 5⟩ 100 200
    { Lifetime.zero with milliseconds := some 10 }
    { Lifetime.zero with milliseconds := some 5 }
  exact ⟨h.1.2.2.2.2.1 ⟨1, "a", none, some 0, some "r", some 5⟩
      (by decide) rfl,
    h.2.2 ⟨1, "a", none, some 0, some "r", some 5⟩ (by decide) rfl⟩

/-- C10: for every lifetime and renewal period, the session and row produced
by `create` carry a non-null `expires = now + lifetime` and a non-null
`renewable_until = now + lifetime + renewalPeriod` (so `create` can never
produce a never-expiring or purge-immortal session), the row being appended
to the table; with both arguments omitted the defaults are 30 days and
90 days, giving `expires = now + 30 days` and
`renewable_until = now + 120 days` in milliseconds. -/
theorem SessionAdmin.create_spec (db : SessionDb) (now : Int) (newId : Nat)
    (tok rtok : String) (L R : Lifetime) :
    ((SessionAdmin.create db now newId tok rtok L R).2.expirationDate =
        some (now + SessionAdmin.lifetimeToMs L) ∧
      (SessionAdmin.create db now newId tok rtok L R).2.renewableUntil =
        some (now + SessionAdmin.lifetimeToMs L +
          SessionAdmin.lifetimeToMs R) ∧
      (SessionAdmin.create db now newId tok rtok L R).1 =
        db ++ [⟨newId, tok, none,
          some (now + SessionAdmin.lifetimeToMs L), some rtok,
          some (now + SessionAdmin.lifetimeToMs L +
            SessionAdmin.lifetimeToMs R)⟩]) ∧
    ((SessionAdmin.createDefault db now newId tok rtok).2.expirationDate =
        some (now + 30 * 86400000) ∧
      (SessionAdmin.createDefault db now newId tok rtok).2.renewableUntil =
        some (now + 120 * 86400000)) := by
  refine ⟨⟨rfl, rfl, rfl⟩, ?_, ?_⟩ <;>
    · norm_num [SessionAdmin.createDefault, SessionAdmin.create,
        SessionAdmin.lifetimeToMs, SessionAdmin.defaultLifetime,
        SessionAdmin.defaultRenewalPeriod, Lifetime.zero]
      try omega

/-- C1: on a non-transaction-scoped coordinator, a callback that returns
normally commits (its final state is the published state), and a callback
that throws any error rolls the transaction back in full — the same error
propagates to the caller, the published state is the initial one, and a fresh
non-transactional read (`open` of any token at any time) observes exactly
what it observed before the operation. -/
theorem Identity.atomicOperation_commit_rollback (i : Identity)
    (db : SessionDb) {E : Type}
    (cb : Identity → SessionDb → Except E SessionDb)
    (hni : i.isTransaction = false) :
    (∀ db2, cb ⟨true⟩ db = .ok db2 →
      Identity.atomicOperation i db cb = (.ok (), db2)) ∧
    (∀ e, cb ⟨true⟩ db = .error e →
      Identity.atomicOperation i db cb = (.error (.callback e), db) ∧
      ∀ (now : Int) (t : String),
        SessionAdmin.openSession (Identity.atomicOperation i db cb).2 now t =
          SessionAdmin.openSession db now t) := by
  constructor
  · intro db2 hcb
    unfold Identity.atomicOperation
    rw [hni, hcb]
    rfl
  · intro e hcb
    have hres : Identity.atomicOperation i db cb = (.error (.callback e), db) := by
      unfold Identity.atomicOperation
      rw [hni, hcb]
      rfl
    exact ⟨hres, fun now t => by rw [hres]⟩

/-- C1 (witness): a concrete committing callback publishes its write, and a
concrete throwing callback leaves the one-row table exactly as it was, the
error surfacing unchanged. -/
theorem Identity.atomicOperation_commit_rollback_witness :
    Identity.atomicOperation (⟨false⟩ : Identity)
      ([⟨1, "a", none, some 10, some "r", some 100⟩] : SessionDb)
      (fun _ d => (.ok (d ++ [⟨2, "b", none, none, none, none⟩]) :
        Except Nat SessionDb)) =
      (.ok (), [⟨1, "a", none, some 10, some "r", some 100⟩,
        ⟨2, "b", none, none, none, none⟩]) ∧
    Identity.atomicOperation (⟨false⟩ : Identity)
      ([⟨1, "a", none, some 10, some "r", some 100⟩] : SessionDb)
      (fun _ _ => (.error 7 : Except Nat SessionDb)) =
      (.error (.callback 7), [⟨1, "a", none, some 10, some "r", some 100⟩]) :=
  ⟨(Identity.atomicOperation_commit_rollback ⟨false⟩
      [⟨1, "a", none, some 10, some "r", some 100⟩]
      (fun _ d => .ok (d ++ [⟨2, "b", none, none, none, none⟩])) rfl).1
      _ rfl,
    ((Identity.atomicOperation_commit_rollback ⟨false⟩
      [⟨1, "a", none, some 10, some "r", some 100⟩]
      (fun _ _ => .error 7) rfl).2 7 rfl).1⟩

/-- C6: on a coordinator whose handle is already transaction-scoped —
in particular the coordinator handed to an outer `atomicOperation` callback —
`atomicOperation` fails with the nested-atomic-operation error and returns
the state untouched, for every callback (so no transaction is opened, the
callback is never invoked and no write is performed); an outer operation
whose callback attempts such nesting and rethrows rolls back with that same
nested error. -/
theorem Identity.atomicOperation_nested_rejection {σ E : Type} (db : σ)
    (innerCb : Identity → σ → Except E σ) :
    (∀ (i : Identity) (d : σ) (cb : Identity → σ → Except E σ),
      i.isTransaction = true →
      Identity.atomicOperation i d cb = (.error .nested, d)) ∧
    Identity.atomicOperation (⟨false⟩ : Identity) db
      (fun inner d =>
        match Identity.atomicOperation inner d innerCb with
        | (.error e, _) => .error e
        | (.ok _, d2) => .ok d2) =
      (.error (.callback .nested), db) := by
  have hfail : ∀ (i : Identity) (d : σ) (cb : Identity → σ → Except E σ),
      i.isTransaction = true →
      Identity.atomicOperation i d cb = (.error .nested, d) := by
    intro i d cb hi
    unfold Identity.atomicOperation
    rw [hi]
    rfl
  refine ⟨hfail, ?_⟩
  simp [Identity.atomicOperation]

/-- C6 (witness): the rejection applied to a concrete transaction-scoped
handle and a concrete state, for a concrete callback. -/
theorem Identity.atomicOperation_nested_rejection_witness :
    Identity.atomicOperation (⟨true⟩ : Identity)
      ([⟨1, "a", none, some 10, some "r", some 100⟩] : SessionDb)
      (fun _ d => (.ok d : Except Nat SessionDb)) =
      (.error .nested, [⟨1, "a", none, some 10, some "r", some 100⟩]) :=
  (Identity.atomicOperation_nested_rejection
    ([⟨1, "a", none, some 10, some "r", some 100⟩] : SessionDb)
    (fun _ d => (.ok d : Except Nat SessionDb))).1 ⟨true⟩
    [⟨1, "a", none, some 10, some "r", some 100⟩] (fun _ d => .ok d) rfl

end NodeIdentity
